import Mathlib

/-!
Shallow embedding of the CMSIS-RTOS RTX Cortex-M4F exception handlers
(irq_cm4f.S) and verification of the specified properties.

Memory is byte-addressed (a function from addresses to byte values); words
are stored little-endian.  Registers hold natural numbers; values loaded
from memory are always below 2^32.  Each handler is translated instruction
by instruction into a state-transformer on `MachState`.  External
collaborators (the service functions reached through `BLX`, the
`thread_switch_helper` advisory hook and the PendSV/SysTick policy
callbacks) are parameters of the corresponding definitions.
-/

namespace IrqCm4f

/-- Read one byte of memory. -/
def readByte (m : Nat → Nat) (a : Nat) : Nat := m a % 256

/-- Store one byte of memory. -/
def writeByte (m : Nat → Nat) (a v : Nat) : Nat → Nat :=
  fun x => if x = a then v % 256 else m x

/-- Read a 32-bit little-endian word. -/
def readWord (m : Nat → Nat) (a : Nat) : Nat :=
  readByte m a + 256 * readByte m (a + 1) + 65536 * readByte m (a + 2) +
    16777216 * readByte m (a + 3)

/-- Store a 32-bit little-endian word. -/
def writeWord (m : Nat → Nat) (a v : Nat) : Nat → Nat :=
  writeByte (writeByte (writeByte (writeByte m a v) (a + 1) (v / 256)) (a + 2) (v / 65536))
    (a + 3) (v / 16777216)

/-- Store a list of words at consecutive ascending addresses
(the effect of an STM / VSTM block transfer). -/
def storeWords : (Nat → Nat) → Nat → List Nat → (Nat → Nat)
  | m, _, [] => m
  | m, a, v :: vs => storeWords (writeWord m a v) (a + 4) vs

theorem writeByte_apply_ne (m : Nat → Nat) (a v x : Nat) (h : x ≠ a) :
    writeByte m a v x = m x := by
  simp [writeByte, h]

theorem writeByte_apply_eq (m : Nat → Nat) (a v : Nat) :
    writeByte m a v a = v % 256 := by
  simp [writeByte]

theorem writeWord_apply_ne (m : Nat → Nat) (a v x : Nat) (h : x < a ∨ a + 3 < x) :
    writeWord m a v x = m x := by
  simp only [writeWord]
  rw [writeByte_apply_ne _ _ _ _ (by omega), writeByte_apply_ne _ _ _ _ (by omega),
    writeByte_apply_ne _ _ _ _ (by omega), writeByte_apply_ne _ _ _ _ (by omega)]

theorem readWord_congr (m1 m2 : Nat → Nat) (a : Nat)
    (h : ∀ x, a ≤ x → x ≤ a + 3 → m1 x = m2 x) : readWord m1 a = readWord m2 a := by
  simp only [readWord, readByte]
  rw [h a (by omega) (by omega), h (a + 1) (by omega) (by omega),
    h (a + 2) (by omega) (by omega), h (a + 3) (by omega) (by omega)]

theorem readWord_writeWord (m : Nat → Nat) (a v : Nat) :
    readWord (writeWord m a v) a = v % 4294967296 := by
  have h0 : writeWord m a v a = v % 256 := by
    simp only [writeWord]
    rw [writeByte_apply_ne _ _ _ _ (by omega), writeByte_apply_ne _ _ _ _ (by omega),
      writeByte_apply_ne _ _ _ _ (by omega), writeByte_apply_eq]
  have h1 : writeWord m a v (a + 1) = v / 256 % 256 := by
    simp only [writeWord]
    rw [writeByte_apply_ne _ _ _ _ (by omega), writeByte_apply_ne _ _ _ _ (by omega),
      writeByte_apply_eq]
  have h2 : writeWord m a v (a + 2) = v / 65536 % 256 := by
    simp only [writeWord]
    rw [writeByte_apply_ne _ _ _ _ (by omega), writeByte_apply_eq]
  have h3 : writeWord m a v (a + 3) = v / 16777216 % 256 := by
    simp only [writeWord]
    rw [writeByte_apply_eq]
  simp only [readWord, readByte, h0, h1, h2, h3]
  omega

theorem readWord_writeWord_ne (m : Nat → Nat) (a v b : Nat)
    (h : b + 3 < a ∨ a + 3 < b) : readWord (writeWord m a v) b = readWord m b := by
  apply readWord_congr
  intro x hx1 hx2
  exact writeWord_apply_ne _ _ _ _ (by omega)

theorem storeWords_apply_ne (vs : List Nat) (m : Nat → Nat) (a x : Nat)
    (h : x < a ∨ a + 4 * vs.length ≤ x) : storeWords m a vs x = m x := by
  induction vs generalizing m a with
  | nil => rfl
  | cons v vs ih =>
    simp only [List.length_cons] at h
    simp only [storeWords]
    rw [ih _ _ (by omega)]
    exact writeWord_apply_ne _ _ _ _ (by omega)

theorem readWord_storeWords (vs : List Nat) (m : Nat → Nat) (a j : Nat) (hj : j < vs.length) :
    readWord (storeWords m a vs) (a + 4 * j) = vs.get ⟨j, hj⟩ % 4294967296 := by
  induction vs generalizing m a j with
  | nil => exact absurd hj (by simp)
  | cons v vs ih =>
    cases j with
    | zero =>
      simp only [storeWords, Nat.mul_zero, Nat.add_zero, List.get]
      have hh : readWord (storeWords (writeWord m a v) (a + 4) vs) a
          = readWord (writeWord m a v) a := by
        apply readWord_congr
        intro x hx1 hx2
        exact storeWords_apply_ne vs _ _ _ (Or.inl (by omega))
      rw [hh, readWord_writeWord]
    | succ j =>
      simp only [List.length_cons] at hj
      have hh := ih (writeWord m a v) (a + 4) j (by omega)
      simp only [storeWords]
      rw [show a + 4 * (j + 1) = a + 4 + 4 * j by omega]
      rw [hh]
      rfl

/-- Machine state visible to the handlers: the core registers, the two
banked stack pointers, the link register (holding EXC_RETURN on handler
entry), the FPU register file S0..S31 and byte-addressed memory. -/
structure MachState where
  r0 : Nat
  r1 : Nat
  r2 : Nat
  r3 : Nat
  r4 : Nat
  r5 : Nat
  r6 : Nat
  r7 : Nat
  r8 : Nat
  r9 : Nat
  r10 : Nat
  r11 : Nat
  r12 : Nat
  psp : Nat
  msp : Nat
  lr : Nat
  s : Nat → Nat
  mem : Nat → Nat

/-- Address of the FPU context control register. -/
def FPCCR : Nat := 0xE000EF34

/-- SVC_ContextSave (irq_cm4f.S lines 81-91): STMDB R12!,{R4-R11}; if the
outgoing frame is extended (EXC_RETURN bit 4 clear) additionally
VSTMDB R12!,{S16-S31}; then STR R12,[R1,#56] and STRB LR,[R1,#34] record
the saved stack pointer and the stack-frame byte in the outgoing TCB
(whose address is in R1). -/
def SVC_ContextSave (st : MachState) : MachState :=
  let a1 := st.r12 - 32
  let m1 := storeWords st.mem a1
    [st.r4, st.r5, st.r6, st.r7, st.r8, st.r9, st.r10, st.r11]
  if st.lr &&& 16 = 0 then
    let a2 := a1 - 64
    let m2 := storeWords m1 a2
      [st.s 16, st.s 17, st.s 18, st.s 19, st.s 20, st.s 21, st.s 22, st.s 23,
       st.s 24, st.s 25, st.s 26, st.s 27, st.s 28, st.s 29, st.s 30, st.s 31]
    { st with mem := writeByte (writeWord m2 (st.r1 + 56) a2) (st.r1 + 34) st.lr, r12 := a2 }
  else
    { st with mem := writeByte (writeWord m1 (st.r1 + 56) a1) (st.r1 + 34) st.lr, r12 := a1 }

/-- SVC_ContextRestore (irq_cm4f.S lines 108-119): LDRB R1,[R2,#34];
LDR R0,[R2,#56]; ORR LR,R1,#0xFFFFFF00; if bit 4 of the rebuilt
EXC_RETURN is clear, VLDMIA R0!,{S16-S31}; LDMIA R0!,{R4-R11};
MSR PSP,R0.  R2 holds the address of the incoming TCB. -/
def SVC_ContextRestore (st : MachState) : MachState :=
  let sf := readByte st.mem (st.r2 + 34)
  let sp := readWord st.mem (st.r2 + 56)
  let lr2 := sf ||| 0xFFFFFF00
  if lr2 &&& 16 = 0 then
    let s2 := fun i => if 16 ≤ i ∧ i ≤ 31 then readWord st.mem (sp + 4 * (i - 16)) else st.s i
    { st with
      r1 := sf
      lr := lr2
      s := s2
      r4 := readWord st.mem (sp + 64)
      r5 := readWord st.mem (sp + 68)
      r6 := readWord st.mem (sp + 72)
      r7 := readWord st.mem (sp + 76)
      r8 := readWord st.mem (sp + 80)
      r9 := readWord st.mem (sp + 84)
      r10 := readWord st.mem (sp + 88)
      r11 := readWord st.mem (sp + 92)
      r0 := sp + 96
      psp := sp + 96 }
  else
    { st with
      r1 := sf
      lr := lr2
      r4 := readWord st.mem sp
      r5 := readWord st.mem (sp + 4)
      r6 := readWord st.mem (sp + 8)
      r7 := readWord st.mem (sp + 12)
      r8 := readWord st.mem (sp + 16)
      r9 := readWord st.mem (sp + 20)
      r10 := readWord st.mem (sp + 24)
      r11 := readWord st.mem (sp + 28)
      r0 := sp + 32
      psp := sp + 32 }

/-- SVC_ContextSwitch (irq_cm4f.S lines 93-106): BL thread_switch_helper,
then re-load curr and next from osRtxInfo.thread.run (address `runAddr`),
publish curr := next with a single word store, and fall into the restore
path.  The helper is an arbitrary state transformer. -/
def SVC_ContextSwitch (helper : MachState → MachState) (runAddr : Nat) (st : MachState) :
    MachState :=
  let s1 := helper st
  let c := readWord s1.mem runAddr
  let n := readWord s1.mem (runAddr + 4)
  SVC_ContextRestore
    { s1 with r1 := c, r2 := n, r3 := runAddr, mem := writeWord s1.mem runAddr n }

/-- SVC_Context (irq_cm4f.S lines 63-79): load curr and next as a pair;
return at once when they are equal; when curr is null skip the register
save and, for an extended outgoing frame, clear FPCCR.LSPACT with a BIC
of bit 0; otherwise run the save path.  All non-trivial paths continue
at SVC_ContextSwitch. -/
def SVC_Context (helper : MachState → MachState) (runAddr : Nat) (st : MachState) : MachState :=
  let c := readWord st.mem runAddr
  let n := readWord st.mem (runAddr + 4)
  let st0 := { st with r1 := c, r2 := n, r3 := runAddr }
  if c = n then st0
  else if c ≠ 0 then SVC_ContextSwitch helper runAddr (SVC_ContextSave st0)
  else if st.lr &&& 16 ≠ 0 then SVC_ContextSwitch helper runAddr st0
  else
    let v := readWord st.mem FPCCR &&& 0xFFFFFFFE
    SVC_ContextSwitch helper runAddr
      { st0 with r0 := v, r1 := FPCCR, mem := writeWord st.mem FPCCR v }

/-- State reaching the SVC_ContextSwitch label when curr and next differ:
the branch structure of SVC_Context with the tail call removed. -/
def contextPre (runAddr : Nat) (st : MachState) : MachState :=
  let c := readWord st.mem runAddr
  let n := readWord st.mem (runAddr + 4)
  let st0 := { st with r1 := c, r2 := n, r3 := runAddr }
  if c ≠ 0 then SVC_ContextSave st0
  else if st.lr &&& 16 ≠ 0 then st0
  else
    let v := readWord st.mem FPCCR &&& 0xFFFFFFFE
    { st0 with r0 := v, r1 := FPCCR, mem := writeWord st.mem FPCCR v }

/-- SVC handler, SVC #0 marshaling part (irq_cm4f.S lines 57-61):
PUSH {R0,LR} on the main stack, LDM R0,{R0-R3,R12} from the basic frame
on PSP, BLX R12 (modelled through the environment `funs` mapping code
addresses to state transformers), POP {R12,LR}, STM R12,{R0-R1}. -/
def svcZeroMarshal (funs : Nat → MachState → MachState) (st : MachState) : MachState :=
  let m1 := writeWord (writeWord st.mem (st.msp - 8) st.r0) (st.msp - 4) st.lr
  let msp1 := st.msp - 8
  let f := readWord m1 (st.r0 + 16)
  let s2 := funs f
    { st with
      mem := m1
      msp := msp1
      r12 := f
      r0 := readWord m1 st.r0
      r1 := readWord m1 (st.r0 + 4)
      r2 := readWord m1 (st.r0 + 8)
      r3 := readWord m1 (st.r0 + 12) }
  let r12p := readWord s2.mem s2.msp
  let lrp := readWord s2.mem (s2.msp + 4)
  { s2 with
    r12 := r12p
    lr := lrp
    msp := s2.msp + 8
    mem := writeWord (writeWord s2.mem r12p s2.r0) (r12p + 4) s2.r1 }

/-- SVC_User (irq_cm4f.S lines 127-142): PUSH {R4,LR}; load the table
count from osRtxUserSVC (address `svcTab`); if count < n (BHI) pop and
return; otherwise load table[n], LDM R0,{R0-R3}, BLX the table function,
re-read PSP and store the returned R0 into the first frame word, then
pop and return.  On entry R0 holds the PSP value and R1 the SVC number. -/
def SVC_User (funs : Nat → MachState → MachState) (svcTab : Nat) (st : MachState) : MachState :=
  let m1 := writeWord (writeWord st.mem (st.msp - 8) st.r4) (st.msp - 4) st.lr
  let msp1 := st.msp - 8
  let cnt := readWord m1 svcTab
  if cnt < st.r1 then
    { st with mem := m1, msp := msp1 + 8, r2 := svcTab, r3 := cnt, r4 := readWord m1 msp1 }
  else
    let tf := readWord m1 (svcTab + 4 * st.r1)
    let s2 := funs tf
      { st with
        mem := m1
        msp := msp1
        r4 := tf
        r0 := readWord m1 st.r0
        r1 := readWord m1 (st.r0 + 4)
        r2 := readWord m1 (st.r0 + 8)
        r3 := readWord m1 (st.r0 + 12) }
    let m2 := writeWord s2.mem s2.psp s2.r0
    { s2 with mem := m2, r4 := readWord m2 s2.msp, msp := s2.msp + 8 }

/-- SVC_Handler entry (irq_cm4f.S lines 50-63): MRS R0,PSP; load the
saved PC from the basic frame; load the SVC number from the byte two
below it; dispatch to SVC_User when nonzero, else marshal the kernel
service call and fall into SVC_Context. -/
def SVC_Handler (funs : Nat → MachState → MachState) (helper : MachState → MachState)
    (runAddr svcTab : Nat) (st : MachState) : MachState :=
  let p := st.psp
  let pc := readWord st.mem (p + 24)
  let n := readByte st.mem (pc - 2)
  if n ≠ 0 then SVC_User funs svcTab { st with r0 := p, r1 := n }
  else SVC_Context helper runAddr (svcZeroMarshal funs { st with r0 := p, r1 := n })

/-- PendSV_Handler (irq_cm4f.S lines 153-159): PUSH {R4,LR}; BL the
policy callback osRtxPendSV_Handler; POP {R4,LR}; MRS R12,PSP; branch to
SVC_Context. -/
def PendSV_Handler (policy helper : MachState → MachState) (runAddr : Nat) (st : MachState) :
    MachState :=
  let m1 := writeWord (writeWord st.mem (st.msp - 8) st.r4) (st.msp - 4) st.lr
  let s1 := policy { st with mem := m1, msp := st.msp - 8 }
  SVC_Context helper runAddr
    { s1 with
      r4 := readWord s1.mem s1.msp
      lr := readWord s1.mem (s1.msp + 4)
      msp := s1.msp + 8
      r12 := s1.psp }

/-- SysTick_Handler (irq_cm4f.S lines 170-176): PUSH {R4,LR}; BL the
policy callback osRtxTick_Handler; POP {R4,LR}; MRS R12,PSP; branch to
SVC_Context. -/
def SysTick_Handler (policy helper : MachState → MachState) (runAddr : Nat) (st : MachState) :
    MachState :=
  let m1 := writeWord (writeWord st.mem (st.msp - 8) st.r4) (st.msp - 4) st.lr
  let s1 := policy { st with mem := m1, msp := st.msp - 8 }
  SVC_Context helper runAddr
    { s1 with
      r4 := readWord s1.mem s1.msp
      lr := readWord s1.mem (s1.msp + 4)
      msp := s1.msp + 8
      r12 := s1.psp }

theorem readByte_writeByte_eq (m : Nat → Nat) (a v : Nat) :
    readByte (writeByte m a v) a = v % 256 := by
  simp only [readByte, writeByte_apply_eq]
  omega

theorem readWord_writeByte_ne (m : Nat → Nat) (a v b : Nat) (h : a < b ∨ b + 3 < a) :
    readWord (writeByte m a v) b = readWord m b := by
  apply readWord_congr
  intro x hx1 hx2
  exact writeByte_apply_ne _ _ _ _ (by omega)

theorem readWord_storeWords_ne (vs : List Nat) (m : Nat → Nat) (a b : Nat)
    (h : b + 3 < a ∨ a + 4 * vs.length ≤ b) :
    readWord (storeWords m a vs) b = readWord m b := by
  apply readWord_congr
  intro x hx1 hx2
  exact storeWords_apply_ne vs _ _ _ (by omega)

theorem readWord_storeWords_cons (v : Nat) (vs : List Nat) (m : Nat → Nat) (a : Nat) :
    readWord (storeWords m a (v :: vs)) a = v % 4294967296 := by
  have hh := readWord_storeWords (v :: vs) m a 0 (by simp)
  simpa using hh

theorem getS (f : Nat → Nat) (j : Nat) (hj : j < 16) :
    List.get [f 16, f 17, f 18, f 19, f 20, f 21, f 22, f 23,
      f 24, f 25, f 26, f 27, f 28, f 29, f 30, f 31] ⟨j, hj⟩ = f (16 + j) := by
  interval_cases j <;> rfl

theorem rebuild_and16 (x : Nat) : ((x % 256) ||| 0xFFFFFF00) &&& 16 = x &&& 16 := by
  apply Nat.eq_of_testBit_eq
  intro i
  rw [show (256 : Nat) = 2 ^ 8 by norm_num]
  simp only [Nat.testBit_land, Nat.testBit_lor, Nat.testBit_mod_two_pow]
  by_cases h : i = 4
  · subst h
    simp [show Nat.testBit 0xFFFFFF00 4 = false by decide]
  · have h16 : Nat.testBit 16 i = false := by
      rw [show (16 : Nat) = 2 ^ 4 by norm_num]
      exact Nat.testBit_two_pow_of_ne fun hc => h hc.symm
    simp [h16]

theorem bic1_mod2 (x : Nat) : (x &&& 0xFFFFFFFE) % 2 = 0 := by
  have h : (x &&& 0xFFFFFFFE).testBit 0 = false := by
    simp [Nat.testBit_land, show Nat.testBit 0xFFFFFFFE 0 = false by decide]
  rw [Nat.testBit_zero] at h
  simp only [decide_eq_false_iff_not] at h
  omega

/-- A fixed base machine state used by the concrete test inputs. -/
def baseState : MachState where
  r0 := 0
  r1 := 0
  r2 := 0
  r3 := 0
  r4 := 0
  r5 := 0
  r6 := 0
  r7 := 0
  r8 := 0
  r9 := 0
  r10 := 0
  r11 := 0
  r12 := 0
  psp := 0
  msp := 0
  lr := 0
  s := fun _ => 0
  mem := fun _ => 0

theorem SVC_Context_fast (helper : MachState → MachState) (runAddr : Nat) (st : MachState)
    (heq : readWord st.mem runAddr = readWord st.mem (runAddr + 4)) :
    SVC_Context helper runAddr st =
      { st with
        r1 := readWord st.mem runAddr
        r2 := readWord st.mem (runAddr + 4)
        r3 := runAddr } := by
  simp only [SVC_Context]
  rw [if_pos heq]

/-- Claim C4: when curr equals next the context-switch tail returns at once
via BX LR: memory (hence current, next, every TCB field and FPCCR), the
PSP and all callee-saved and FPU registers of the caller are unchanged,
and the result does not depend on the switch helper (no save, no restore,
no switch). -/
theorem C4_noop_fast_path (helper : MachState → MachState) (runAddr : Nat) (st : MachState)
    (heq : readWord st.mem runAddr = readWord st.mem (runAddr + 4)) :
    (SVC_Context helper runAddr st).mem = st.mem ∧
    (SVC_Context helper runAddr st).psp = st.psp ∧
    (SVC_Context helper runAddr st).lr = st.lr ∧
    (SVC_Context helper runAddr st).r4 = st.r4 ∧
    (SVC_Context helper runAddr st).r5 = st.r5 ∧
    (SVC_Context helper runAddr st).r6 = st.r6 ∧
    (SVC_Context helper runAddr st).r7 = st.r7 ∧
    (SVC_Context helper runAddr st).r8 = st.r8 ∧
    (SVC_Context helper runAddr st).r9 = st.r9 ∧
    (SVC_Context helper runAddr st).r10 = st.r10 ∧
    (SVC_Context helper runAddr st).r11 = st.r11 ∧
    (SVC_Context helper runAddr st).s = st.s ∧
    ∀ h2 : MachState → MachState, SVC_Context helper runAddr st = SVC_Context h2 runAddr st := by
  rw [SVC_Context_fast helper runAddr st heq]
  refine ⟨rfl, rfl, rfl, rfl, rfl, rfl, rfl, rfl, rfl, rfl, rfl, rfl, ?_⟩
  intro h2
  rw [SVC_Context_fast h2 runAddr st heq]

/-- Concrete no-op input: both scheduler-anchor slots hold the same
nonzero handle. -/
def noopState : MachState :=
  { baseState with
    r4 := 0xDEADBEEF
    psp := 4096
    lr := 0xFFFFFFFD
    mem := fun a => if a = 600 then 5 else if a = 604 then 5 else 0 }

theorem C4_noop_fast_path_check :
    readWord noopState.mem 600 = readWord noopState.mem (600 + 4) ∧
    (SVC_Context id 600 noopState).mem = noopState.mem := by
  refine ⟨by decide, ?_⟩
  exact (C4_noop_fast_path id 600 noopState (by decide)).1

/-- Claim C10: when both scheduler-anchor slots are null the equality fast
path applies: the tail returns at once, memory and PSP are untouched, the
null handles are never dereferenced (the result does not depend on the
helper and equals the pure fast-path state). -/
theorem C10_null_pair (helper : MachState → MachState) (runAddr : Nat) (st : MachState)
    (hc : readWord st.mem runAddr = 0) (hn : readWord st.mem (runAddr + 4) = 0) :
    SVC_Context helper runAddr st =
      { st with
        r1 := 0
        r2 := 0
        r3 := runAddr } ∧
    (SVC_Context helper runAddr st).mem = st.mem ∧
    (SVC_Context helper runAddr st).psp = st.psp ∧
    ∀ h2 : MachState → MachState, SVC_Context helper runAddr st = SVC_Context h2 runAddr st := by
  have he : readWord st.mem runAddr = readWord st.mem (runAddr + 4) := by rw [hc, hn]
  have h1 := SVC_Context_fast helper runAddr st he
  rw [hc, hn] at h1
  refine ⟨h1, ?_, ?_, ?_⟩
  · rw [h1]
  · rw [h1]
  · intro h2
    have h3 := SVC_Context_fast h2 runAddr st he
    rw [hc, hn] at h3
    rw [h1, h3]

theorem C10_null_pair_check :
    readWord baseState.mem 600 = 0 ∧
    (SVC_Context id 600 baseState).mem = baseState.mem := by
  refine ⟨by decide, ?_⟩
  exact (C10_null_pair id 600 baseState (by decide) (by decide)).2.1

/-- Memory after the extended-frame save path, written out explicitly. -/
def mSaveExt (st : MachState) : Nat → Nat :=
  writeByte
    (writeWord
      (storeWords
        (storeWords st.mem (st.r12 - 32)
          [st.r4, st.r5, st.r6, st.r7, st.r8, st.r9, st.r10, st.r11])
        (st.r12 - 32 - 64)
        [st.s 16, st.s 17, st.s 18, st.s 19, st.s 20, st.s 21, st.s 22, st.s 23,
         st.s 24, st.s 25, st.s 26, st.s 27, st.s 28, st.s 29, st.s 30, st.s 31])
      (st.r1 + 56) (st.r12 - 32 - 64))
    (st.r1 + 34) st.lr

/-- Memory after the basic-frame save path, written out explicitly. -/
def mSaveBasic (st : MachState) : Nat → Nat :=
  writeByte
    (writeWord
      (storeWords st.mem (st.r12 - 32)
        [st.r4, st.r5, st.r6, st.r7, st.r8, st.r9, st.r10, st.r11])
      (st.r1 + 56) (st.r12 - 32))
    (st.r1 + 34) st.lr

theorem save_ext_eq (st : MachState) (hext : st.lr &&& 16 = 0) :
    SVC_ContextSave st =
      { st with
        mem := mSaveExt st
        r12 := st.r12 - 32 - 64 } := by
  simp only [SVC_ContextSave, mSaveExt]
  rw [if_pos hext]

theorem save_basic_eq (st : MachState) (hext : st.lr &&& 16 ≠ 0) :
    SVC_ContextSave st =
      { st with
        mem := mSaveBasic st
        r12 := st.r12 - 32 } := by
  simp only [SVC_ContextSave, mSaveBasic]
  rw [if_neg hext]

/-- Claim C1: restoring directly after saving is the identity on the saved
register set.  For any state entering the save path, running the restore
path on the same TCB returns R4..R11 to their pre-save values, rebuilds
EXC_RETURN as 0xFFFFFF00 OR-ed with the stored stack-frame byte (the low
byte of the saved LR), relocates PSP back to the pre-save R12, and when
the stack-frame byte has bit 0x10 clear (extended frame) also returns
S16..S31 to their pre-save values.  The side conditions keep the register
values in 32-bit range, the stack deep enough for the frame, and the two
written TCB fields outside the stacked register image. -/
theorem C1_round_trip (st : MachState)
    (h96 : 96 ≤ st.r12) (h32 : st.r12 < 4294967296)
    (hr4 : st.r4 < 4294967296) (hr5 : st.r5 < 4294967296)
    (hr6 : st.r6 < 4294967296) (hr7 : st.r7 < 4294967296)
    (hr8 : st.r8 < 4294967296) (hr9 : st.r9 < 4294967296)
    (hr10 : st.r10 < 4294967296) (hr11 : st.r11 < 4294967296)
    (hsreg : ∀ i, st.s i < 4294967296)
    (hd34 : st.r1 + 34 < st.r12 - 96 ∨ st.r12 ≤ st.r1 + 34)
    (hd56 : st.r1 + 59 < st.r12 - 96 ∨ st.r12 ≤ st.r1 + 56) :
    (SVC_ContextRestore { SVC_ContextSave st with r2 := st.r1 }).r4 = st.r4 ∧
    (SVC_ContextRestore { SVC_ContextSave st with r2 := st.r1 }).r5 = st.r5 ∧
    (SVC_ContextRestore { SVC_ContextSave st with r2 := st.r1 }).r6 = st.r6 ∧
    (SVC_ContextRestore { SVC_ContextSave st with r2 := st.r1 }).r7 = st.r7 ∧
    (SVC_ContextRestore { SVC_ContextSave st with r2 := st.r1 }).r8 = st.r8 ∧
    (SVC_ContextRestore { SVC_ContextSave st with r2 := st.r1 }).r9 = st.r9 ∧
    (SVC_ContextRestore { SVC_ContextSave st with r2 := st.r1 }).r10 = st.r10 ∧
    (SVC_ContextRestore { SVC_ContextSave st with r2 := st.r1 }).r11 = st.r11 ∧
    (SVC_ContextRestore { SVC_ContextSave st with r2 := st.r1 }).lr
      = (st.lr % 256) ||| 0xFFFFFF00 ∧
    (SVC_ContextRestore { SVC_ContextSave st with r2 := st.r1 }).psp = st.r12 ∧
    (st.lr &&& 16 = 0 → ∀ i, 16 ≤ i → i ≤ 31 →
      (SVC_ContextRestore { SVC_ContextSave st with r2 := st.r1 }).s i = st.s i) := by
  by_cases hext : st.lr &&& 16 = 0
  · rw [save_ext_eq st hext]
    have hsf : readByte (mSaveExt st) (st.r1 + 34) = st.lr % 256 := by
      simp only [mSaveExt]
      exact readByte_writeByte_eq _ _ _
    have hsp : readWord (mSaveExt st) (st.r1 + 56) = st.r12 - 32 - 64 := by
      simp only [mSaveExt]
      rw [readWord_writeByte_ne _ _ _ _ (by omega), readWord_writeWord]
      omega
    have hv4 : readWord (mSaveExt st) (st.r12 - 32) = st.r4 := by
      simp only [mSaveExt]
      rw [readWord_writeByte_ne _ _ _ _ (by omega),
        readWord_writeWord_ne _ _ _ _ (by omega),
        readWord_storeWords_ne _ _ _ _
          (by simp only [List.length_cons, List.length_nil]; omega),
        readWord_storeWords_cons]
      exact Nat.mod_eq_of_lt hr4
    have hgen : ∀ j, ∀ hj : j < 8, ∀ v : Nat, v < 4294967296 →
        List.get [st.r4, st.r5, st.r6, st.r7, st.r8, st.r9, st.r10, st.r11]
          ⟨j, by simp only [List.length_cons, List.length_nil]; omega⟩ = v →
        readWord (mSaveExt st) (st.r12 - 32 + 4 * j) = v := by
      intro j hj v hv hget
      simp only [mSaveExt]
      rw [readWord_writeByte_ne _ _ _ _ (by omega),
        readWord_writeWord_ne _ _ _ _ (by omega),
        readWord_storeWords_ne _ _ _ _
          (by simp only [List.length_cons, List.length_nil]; omega),
        readWord_storeWords]
      rw [hget]
      exact Nat.mod_eq_of_lt hv
    have hfpu : ∀ i, 16 ≤ i → i ≤ 31 →
        readWord (mSaveExt st) (st.r12 - 32 - 64 + 4 * (i - 16)) = st.s i := by
      intro i hi1 hi2
      simp only [mSaveExt]
      rw [readWord_writeByte_ne _ _ _ _ (by omega),
        readWord_writeWord_ne _ _ _ _ (by omega),
        readWord_storeWords]
      rw [getS st.s (i - 16)]
      rw [show 16 + (i - 16) = i by omega]
      exact Nat.mod_eq_of_lt (hsreg i)
      all_goals omega
    simp only [SVC_ContextRestore]
    simp only [hsf, hsp, rebuild_and16]
    rw [if_pos hext]
    refine ⟨?_, ?_, ?_, ?_, ?_, ?_, ?_, ?_, rfl,
      by show st.r12 - 32 - 64 + 96 = st.r12; omega, ?_⟩
    · show readWord (mSaveExt st) (st.r12 - 32 - 64 + 64) = st.r4
      rw [show st.r12 - 32 - 64 + 64 = st.r12 - 32 by omega]
      exact hv4
    · show readWord (mSaveExt st) (st.r12 - 32 - 64 + 68) = st.r5
      rw [show st.r12 - 32 - 64 + 68 = st.r12 - 32 + 4 * 1 by omega]
      exact hgen 1 (by omega) st.r5 hr5 rfl
    · show readWord (mSaveExt st) (st.r12 - 32 - 64 + 72) = st.r6
      rw [show st.r12 - 32 - 64 + 72 = st.r12 - 32 + 4 * 2 by omega]
      exact hgen 2 (by omega) st.r6 hr6 rfl
    · show readWord (mSaveExt st) (st.r12 - 32 - 64 + 76) = st.r7
      rw [show st.r12 - 32 - 64 + 76 = st.r12 - 32 + 4 * 3 by omega]
      exact hgen 3 (by omega) st.r7 hr7 rfl
    · show readWord (mSaveExt st) (st.r12 - 32 - 64 + 80) = st.r8
      rw [show st.r12 - 32 - 64 + 80 = st.r12 - 32 + 4 * 4 by omega]
      exact hgen 4 (by omega) st.r8 hr8 rfl
    · show readWord (mSaveExt st) (st.r12 - 32 - 64 + 84) = st.r9
      rw [show st.r12 - 32 - 64 + 84 = st.r12 - 32 + 4 * 5 by omega]
      exact hgen 5 (by omega) st.r9 hr9 rfl
    · show readWord (mSaveExt st) (st.r12 - 32 - 64 + 88) = st.r10
      rw [show st.r12 - 32 - 64 + 88 = st.r12 - 32 + 4 * 6 by omega]
      exact hgen 6 (by omega) st.r10 hr10 rfl
    · show readWord (mSaveExt st) (st.r12 - 32 - 64 + 92) = st.r11
      rw [show st.r12 - 32 - 64 + 92 = st.r12 - 32 + 4 * 7 by omega]
      exact hgen 7 (by omega) st.r11 hr11 rfl
    · intro _ i hi1 hi2
      show (if 16 ≤ i ∧ i ≤ 31 then
          readWord (mSaveExt st) (st.r12 - 32 - 64 + 4 * (i - 16)) else st.s i) = st.s i
      rw [if_pos ⟨hi1, hi2⟩]
      exact hfpu i hi1 hi2
  · rw [save_basic_eq st hext]
    have hsf : readByte (mSaveBasic st) (st.r1 + 34) = st.lr % 256 := by
      simp only [mSaveBasic]
      exact readByte_writeByte_eq _ _ _
    have hsp : readWord (mSaveBasic st) (st.r1 + 56) = st.r12 - 32 := by
      simp only [mSaveBasic]
      rw [readWord_writeByte_ne _ _ _ _ (by omega), readWord_writeWord]
      omega
    have hv4 : readWord (mSaveBasic st) (st.r12 - 32) = st.r4 := by
      simp only [mSaveBasic]
      rw [readWord_writeByte_ne _ _ _ _ (by omega),
        readWord_writeWord_ne _ _ _ _ (by omega),
        readWord_storeWords_cons]
      exact Nat.mod_eq_of_lt hr4
    have hgen : ∀ j, ∀ hj : j < 8, ∀ v : Nat, v < 4294967296 →
        List.get [st.r4, st.r5, st.r6, st.r7, st.r8, st.r9, st.r10, st.r11]
          ⟨j, by simp only [List.length_cons, List.length_nil]; omega⟩ = v →
        readWord (mSaveBasic st) (st.r12 - 32 + 4 * j) = v := by
      intro j hj v hv hget
      simp only [mSaveBasic]
      rw [readWord_writeByte_ne _ _ _ _ (by omega),
        readWord_writeWord_ne _ _ _ _ (by omega),
        readWord_storeWords]
      rw [hget]
      exact Nat.mod_eq_of_lt hv
    simp only [SVC_ContextRestore]
    simp only [hsf, hsp, rebuild_and16]
    rw [if_neg hext]
    refine ⟨hv4, ?_, ?_, ?_, ?_, ?_, ?_, ?_, rfl,
      by show st.r12 - 32 + 32 = st.r12; omega, ?_⟩
    · show readWord (mSaveBasic st) (st.r12 - 32 + 4) = st.r5
      rw [show st.r12 - 32 + 4 = st.r12 - 32 + 4 * 1 by omega]
      exact hgen 1 (by omega) st.r5 hr5 rfl
    · show readWord (mSaveBasic st) (st.r12 - 32 + 8) = st.r6
      rw [show st.r12 - 32 + 8 = st.r12 - 32 + 4 * 2 by omega]
      exact hgen 2 (by omega) st.r6 hr6 rfl
    · show readWord (mSaveBasic st) (st.r12 - 32 + 12) = st.r7
      rw [show st.r12 - 32 + 12 = st.r12 - 32 + 4 * 3 by omega]
      exact hgen 3 (by omega) st.r7 hr7 rfl
    · show readWord (mSaveBasic st) (st.r12 - 32 + 16) = st.r8
      rw [show st.r12 - 32 + 16 = st.r12 - 32 + 4 * 4 by omega]
      exact hgen 4 (by omega) st.r8 hr8 rfl
    · show readWord (mSaveBasic st) (st.r12 - 32 + 20) = st.r9
      rw [show st.r12 - 32 + 20 = st.r12 - 32 + 4 * 5 by omega]
      exact hgen 5 (by omega) st.r9 hr9 rfl
    · show readWord (mSaveBasic st) (st.r12 - 32 + 24) = st.r10
      rw [show st.r12 - 32 + 24 = st.r12 - 32 + 4 * 6 by omega]
      exact hgen 6 (by omega) st.r10 hr10 rfl
    · show readWord (mSaveBasic st) (st.r12 - 32 + 28) = st.r11
      rw [show st.r12 - 32 + 28 = st.r12 - 32 + 4 * 7 by omega]
      exact hgen 7 (by omega) st.r11 hr11 rfl
    · intro hc
      exact absurd hc hext

/-- Concrete round-trip input: thread TCB at 2000, stack top at 1000,
EXC_RETURN 0xFFFFFFED (extended frame, bit 4 clear). -/
def c1State : MachState :=
  { baseState with
    r1 := 2000
    r4 := 11
    r5 := 12
    r6 := 13
    r7 := 14
    r8 := 15
    r9 := 16
    r10 := 17
    r11 := 4294967295
    r12 := 1000
    lr := 0xFFFFFFED
    s := fun i => i % 17 + 3 }

theorem C1_round_trip_check :
    96 ≤ c1State.r12 ∧
    (SVC_ContextRestore { SVC_ContextSave c1State with r2 := c1State.r1 }).r4 = c1State.r4 :=
  ⟨by decide,
   (C1_round_trip c1State (by decide) (by decide) (by decide) (by decide) (by decide)
     (by decide) (by decide) (by decide) (by decide) (by decide)
     (fun i => by show i % 17 + 3 < 4294967296; omega)
     (by decide) (by decide)).1⟩

theorem readWord_lt (m : Nat → Nat) (a : Nat) : readWord m a < 4294967296 := by
  simp only [readWord, readByte]
  omega

theorem restore_mem (σ : MachState) : (SVC_ContextRestore σ).mem = σ.mem := by
  simp only [SVC_ContextRestore]
  by_cases h : (readByte σ.mem (σ.r2 + 34) ||| 0xFFFFFF00) &&& 16 = 0
  · rw [if_pos h]
  · rw [if_neg h]

theorem restore_psp (σ : MachState) :
    (SVC_ContextRestore σ).psp = readWord σ.mem (σ.r2 + 56) +
      (if (readByte σ.mem (σ.r2 + 34) ||| 0xFFFFFF00) &&& 16 = 0 then 96 else 32) := by
  simp only [SVC_ContextRestore]
  by_cases h : (readByte σ.mem (σ.r2 + 34) ||| 0xFFFFFF00) &&& 16 = 0
  · rw [if_pos h, if_pos h]
  · rw [if_neg h, if_neg h]

theorem SVC_Context_factor (helper : MachState → MachState) (runAddr : Nat) (st : MachState)
    (hne : readWord st.mem runAddr ≠ readWord st.mem (runAddr + 4)) :
    SVC_Context helper runAddr st = SVC_ContextSwitch helper runAddr (contextPre runAddr st) := by
  simp only [SVC_Context, contextPre]
  rw [if_neg hne]
  by_cases h0 : readWord st.mem runAddr ≠ 0
  · rw [if_pos h0, if_pos h0]
  · rw [if_neg h0, if_neg h0]
    by_cases h1 : st.lr &&& 16 ≠ 0
    · rw [if_pos h1, if_pos h1]
    · rw [if_neg h1, if_neg h1]

theorem contextPre_deleted_ext (runAddr : Nat) (st : MachState)
    (hc : readWord st.mem runAddr = 0) (hext : st.lr &&& 16 = 0) :
    contextPre runAddr st =
      { st with
        r0 := readWord st.mem FPCCR &&& 0xFFFFFFFE
        r1 := FPCCR
        r2 := readWord st.mem (runAddr + 4)
        r3 := runAddr
        mem := writeWord st.mem FPCCR (readWord st.mem FPCCR &&& 0xFFFFFFFE) } := by
  simp only [contextPre]
  rw [if_neg (fun h => h hc), if_neg (fun h => h hext)]

theorem contextPre_deleted_basic (runAddr : Nat) (st : MachState)
    (hc : readWord st.mem runAddr = 0) (hb : st.lr &&& 16 ≠ 0) :
    contextPre runAddr st =
      { st with
        r1 := 0
        r2 := readWord st.mem (runAddr + 4)
        r3 := runAddr } := by
  simp only [contextPre]
  rw [if_neg (fun h => h hc), if_pos hb, hc]

/-- Claim C3 (amended): on every entry to the switch tail with curr null
and next different from curr, the register-save step is skipped entirely,
whatever the form of the deleted frame: before the helper call R12 is
untouched and memory is changed at most at the four FPCCR bytes - and
not even there when the deleted frame was basic (EXC_RETURN bit 4 set).
When the deleted frame was extended (bit 4 clear), bit 0 of FPCCR
(LSPACT) is cleared before the switch and is still 0 after the tail.
The PSP ends at the incoming sp field advanced past the restored
register image: next.sp + 96 when the incoming frame is extended,
next.sp + 32 when it is basic.  For the after-the-tail FPCCR conclusion
the helper is assumed to preserve the four FPCCR bytes and the anchor
must not alias FPCCR. -/
theorem C3_deleted_path_amended (helper : MachState → MachState) (runAddr : Nat)
    (st : MachState)
    (hc : readWord st.mem runAddr = 0)
    (hn : readWord st.mem (runAddr + 4) ≠ 0)
    (hH : st.lr &&& 16 = 0 → ∀ x, FPCCR ≤ x → x ≤ FPCCR + 3 →
      (helper (contextPre runAddr st)).mem x = (contextPre runAddr st).mem x)
    (hdr : runAddr + 3 < FPCCR ∨ FPCCR + 3 < runAddr) :
    SVC_Context helper runAddr st = SVC_ContextSwitch helper runAddr (contextPre runAddr st) ∧
    (∀ x, x < FPCCR ∨ FPCCR + 3 < x → (contextPre runAddr st).mem x = st.mem x) ∧
    (contextPre runAddr st).r12 = st.r12 ∧
    (st.lr &&& 16 ≠ 0 → ∀ x, (contextPre runAddr st).mem x = st.mem x) ∧
    (st.lr &&& 16 = 0 → readWord (contextPre runAddr st).mem FPCCR % 2 = 0) ∧
    (st.lr &&& 16 = 0 → readWord (SVC_Context helper runAddr st).mem FPCCR % 2 = 0) ∧
    (SVC_Context helper runAddr st).psp =
      readWord (writeWord (helper (contextPre runAddr st)).mem runAddr
          (readWord (helper (contextPre runAddr st)).mem (runAddr + 4)))
        (readWord (helper (contextPre runAddr st)).mem (runAddr + 4) + 56) +
      (if (readByte (writeWord (helper (contextPre runAddr st)).mem runAddr
            (readWord (helper (contextPre runAddr st)).mem (runAddr + 4)))
          (readWord (helper (contextPre runAddr st)).mem (runAddr + 4) + 34) ||| 0xFFFFFF00)
          &&& 16 = 0
       then 96 else 32) := by
  have hne : readWord st.mem runAddr ≠ readWord st.mem (runAddr + 4) := by
    rw [hc]
    exact fun h => hn h.symm
  have hfact := SVC_Context_factor helper runAddr st hne
  have hvlt : readWord st.mem FPCCR &&& 0xFFFFFFFE < 4294967296 :=
    Nat.lt_of_le_of_lt Nat.and_le_left (readWord_lt _ _)
  have h4c : st.lr &&& 16 = 0 → readWord (contextPre runAddr st).mem FPCCR % 2 = 0 := by
    intro hext
    rw [contextPre_deleted_ext runAddr st hc hext]
    show readWord (writeWord st.mem FPCCR (readWord st.mem FPCCR &&& 0xFFFFFFFE)) FPCCR % 2 = 0
    rw [readWord_writeWord, Nat.mod_eq_of_lt hvlt]
    exact bic1_mod2 _
  refine ⟨hfact, ?_, ?_, ?_, h4c, ?_, ?_⟩
  · intro x hx
    by_cases hext : st.lr &&& 16 = 0
    · rw [contextPre_deleted_ext runAddr st hc hext]
      exact writeWord_apply_ne _ _ _ _ hx
    · rw [contextPre_deleted_basic runAddr st hc hext]
  · by_cases hext : st.lr &&& 16 = 0
    · rw [contextPre_deleted_ext runAddr st hc hext]
    · rw [contextPre_deleted_basic runAddr st hc hext]
  · intro hb x
    rw [contextPre_deleted_basic runAddr st hc hb]
  · intro hext
    rw [hfact]
    simp only [SVC_ContextSwitch]
    rw [restore_mem]
    show readWord (writeWord (helper (contextPre runAddr st)).mem runAddr
      (readWord (helper (contextPre runAddr st)).mem (runAddr + 4))) FPCCR % 2 = 0
    rw [readWord_writeWord_ne _ _ _ _ (by omega)]
    rw [readWord_congr _ _ _ (hH hext)]
    exact h4c hext
  · rw [hfact]
    simp only [SVC_ContextSwitch]
    rw [restore_psp]

/-- Concrete deleted-thread input: curr slot null, next TCB at 2000 with
sp = 3000 and a basic stack-frame byte 0xFD; the deleted frame is
extended (EXC_RETURN 0xFFFFFFED). -/
def c3State : MachState :=
  { baseState with
    lr := 0xFFFFFFED
    psp := 5000
    mem := fun a =>
      if a = 604 then 208 else if a = 605 then 7 else
      if a = 2034 then 253 else
      if a = 2056 then 184 else if a = 2057 then 11 else 0 }

/-- Claim C3 counterexample: with next.sp = 3000 the tail leaves
PSP = 3032 (the sp advanced past the eight restored words), not 3000,
so the PSP is not relocated to next.sp itself. -/
theorem C3_psp_counterexample :
    readWord c3State.mem 600 = 0 ∧
    readWord c3State.mem (600 + 4) = 2000 ∧
    c3State.lr &&& 16 = 0 ∧
    readWord c3State.mem (2000 + 56) = 3000 ∧
    readWord (SVC_Context id 600 c3State).mem (2000 + 56) = 3000 ∧
    ¬ (SVC_Context id 600 c3State).psp = 3000 ∧
    (SVC_Context id 600 c3State).psp = 3032 := by
  decide

theorem C3_deleted_path_check :
    readWord c3State.mem 600 = 0 ∧
    readWord (SVC_Context id 600 c3State).mem FPCCR % 2 = 0 :=
  ⟨by decide,
   (C3_deleted_path_amended id 600 c3State (by decide) (by decide)
     (fun _ x h1 h2 => rfl) (by decide)).2.2.2.2.2.1 (by decide)⟩

theorem save_mem_frame (w : MachState) (x : Nat) (h96 : 96 ≤ w.r12)
    (h1 : x < w.r12 - 96 ∨ w.r12 ≤ x) (h2 : x ≠ w.r1 + 34)
    (h3 : x < w.r1 + 56 ∨ w.r1 + 59 < x) :
    (SVC_ContextSave w).mem x = w.mem x := by
  by_cases hext : w.lr &&& 16 = 0
  · rw [save_ext_eq w hext]
    show mSaveExt w x = w.mem x
    simp only [mSaveExt]
    rw [writeByte_apply_ne _ _ _ _ h2,
      writeWord_apply_ne _ _ _ _ (by omega),
      storeWords_apply_ne _ _ _ _
        (by simp only [List.length_cons, List.length_nil]; omega),
      storeWords_apply_ne _ _ _ _
        (by simp only [List.length_cons, List.length_nil]; omega)]
  · rw [save_basic_eq w hext]
    show mSaveBasic w x = w.mem x
    simp only [mSaveBasic]
    rw [writeByte_apply_ne _ _ _ _ h2,
      writeWord_apply_ne _ _ _ _ (by omega),
      storeWords_apply_ne _ _ _ _
        (by simp only [List.length_cons, List.length_nil]; omega)]

theorem contextPre_mem_frame (runAddr : Nat) (st : MachState) (x : Nat)
    (h96 : 96 ≤ st.r12)
    (hA : x < st.r12 - 96 ∨ st.r12 ≤ x)
    (hB34 : x ≠ readWord st.mem runAddr + 34)
    (hB56 : x < readWord st.mem runAddr + 56 ∨ readWord st.mem runAddr + 59 < x)
    (hC : x < FPCCR ∨ FPCCR + 3 < x) :
    (contextPre runAddr st).mem x = st.mem x := by
  simp only [contextPre]
  by_cases h0 : readWord st.mem runAddr ≠ 0
  · rw [if_pos h0]
    exact save_mem_frame _ x h96 hA hB34 hB56
  · rw [if_neg h0]
    by_cases h1 : st.lr &&& 16 ≠ 0
    · rw [if_pos h1]
    · rw [if_neg h1]
      exact writeWord_apply_ne _ _ _ _ hC

theorem switch_anchor (helper : MachState → MachState) (runAddr : Nat) (pre : MachState) :
    readWord (SVC_ContextSwitch helper runAddr pre).mem runAddr
      = readWord (helper pre).mem (runAddr + 4) ∧
    ∀ x, runAddr + 4 ≤ x →
      (SVC_ContextSwitch helper runAddr pre).mem x = (helper pre).mem x := by
  constructor
  · simp only [SVC_ContextSwitch]
    rw [restore_mem]
    show readWord (writeWord (helper pre).mem runAddr
      (readWord (helper pre).mem (runAddr + 4))) runAddr = _
    rw [readWord_writeWord]
    exact Nat.mod_eq_of_lt (readWord_lt _ _)
  · intro x hx
    simp only [SVC_ContextSwitch]
    rw [restore_mem]
    show writeWord (helper pre).mem runAddr
      (readWord (helper pre).mem (runAddr + 4)) x = _
    exact writeWord_apply_ne _ _ _ _ (by omega)

/-- Claim C7: across the switch tail the core mutates the scheduler anchor
only through the single publish curr := next; before the helper call the
eight anchor bytes are untouched, the value published into curr is the
next handle re-fetched from the helper output state (not the value read
before the call), and the next slot is never written by the core. -/
theorem C7_anchor_publish (helper : MachState → MachState) (runAddr : Nat) (st : MachState)
    (hne : readWord st.mem runAddr ≠ readWord st.mem (runAddr + 4))
    (h96 : 96 ≤ st.r12)
    (hA : runAddr + 8 ≤ st.r12 - 96 ∨ st.r12 ≤ runAddr)
    (hB34 : readWord st.mem runAddr + 34 < runAddr ∨
      runAddr + 8 ≤ readWord st.mem runAddr + 34)
    (hB56 : readWord st.mem runAddr + 59 < runAddr ∨
      runAddr + 8 ≤ readWord st.mem runAddr + 56)
    (hC : runAddr + 8 ≤ FPCCR ∨ FPCCR + 3 < runAddr) :
    SVC_Context helper runAddr st = SVC_ContextSwitch helper runAddr (contextPre runAddr st) ∧
    (∀ x, runAddr ≤ x → x < runAddr + 8 → (contextPre runAddr st).mem x = st.mem x) ∧
    readWord (SVC_Context helper runAddr st).mem runAddr
      = readWord (helper (contextPre runAddr st)).mem (runAddr + 4) ∧
    (∀ x, runAddr + 4 ≤ x →
      (SVC_Context helper runAddr st).mem x = (helper (contextPre runAddr st)).mem x) ∧
    readWord (SVC_Context helper runAddr st).mem (runAddr + 4)
      = readWord (helper (contextPre runAddr st)).mem (runAddr + 4) := by
  have hf := SVC_Context_factor helper runAddr st hne
  have hsw := switch_anchor helper runAddr (contextPre runAddr st)
  refine ⟨hf, ?_, ?_, ?_, ?_⟩
  · intro x hx1 hx2
    exact contextPre_mem_frame runAddr st x h96 (by omega) (by omega) (by omega) (by omega)
  · rw [hf]
    exact hsw.1
  · intro x hx
    rw [hf]
    exact hsw.2 x hx
  · rw [hf]
    exact readWord_congr _ _ _ (fun x hx1 hx2 => hsw.2 x (by omega))

/-- Concrete anchor-publish input: the deleted-thread memory of c3State
with a stack pointer deep enough for the save-path side conditions. -/
def c7State : MachState :=
  { c3State with r12 := 1000 }

theorem C7_anchor_publish_check :
    readWord c7State.mem 600 ≠ readWord c7State.mem (600 + 4) ∧
    readWord (SVC_Context id 600 c7State).mem 600
      = readWord (id (contextPre 600 c7State)).mem (600 + 4) :=
  ⟨by decide,
   (C7_anchor_publish id 600 c7State (by decide) (by decide) (by decide) (by decide)
     (by decide) (by decide)).2.2.1⟩

/-- Claim C8: the TCB frame condition.  (1) on the fast path memory is
untouched; (2) on the save path, before the helper call, the core writes
only the stacked register image and the two TCB fields of curr at byte
offsets 56..59 (sp) and 34 (stack_frame) - every other byte of every TCB
is unchanged, and the written thread is curr, not the incoming thread;
(3) on the deleted path no TCB byte is written at all (only FPCCR);
(4) after the helper the core writes only the four anchor bytes of curr;
(5) the restore path reads only the stack_frame byte and the sp word of
the incoming TCB plus the stacked image those fields designate: any
memory agreeing there produces the same restored registers, PSP and
EXC_RETURN. -/
theorem C8_tcb_frame (helper : MachState → MachState) (runAddr : Nat) (st : MachState)
    (h96 : 96 ≤ st.r12) :
    (readWord st.mem runAddr = readWord st.mem (runAddr + 4) →
      (SVC_Context helper runAddr st).mem = st.mem) ∧
    (readWord st.mem runAddr ≠ 0 →
      ∀ x, (x < st.r12 - 96 ∨ st.r12 ≤ x) →
        x ≠ readWord st.mem runAddr + 34 →
        (x < readWord st.mem runAddr + 56 ∨ readWord st.mem runAddr + 59 < x) →
        (contextPre runAddr st).mem x = st.mem x) ∧
    (readWord st.mem runAddr = 0 →
      ∀ x, (x < FPCCR ∨ FPCCR + 3 < x) → (contextPre runAddr st).mem x = st.mem x) ∧
    (readWord st.mem runAddr ≠ readWord st.mem (runAddr + 4) →
      ∀ x, (x < runAddr ∨ runAddr + 3 < x) →
        (SVC_Context helper runAddr st).mem x = (helper (contextPre runAddr st)).mem x) ∧
    (∀ w : MachState, ∀ m2 : Nat → Nat,
      m2 (w.r2 + 34) = w.mem (w.r2 + 34) →
      (∀ y, w.r2 + 56 ≤ y → y ≤ w.r2 + 59 → m2 y = w.mem y) →
      (∀ y, readWord w.mem (w.r2 + 56) ≤ y → y < readWord w.mem (w.r2 + 56) + 96 →
        m2 y = w.mem y) →
      (SVC_ContextRestore { w with mem := m2 }).r4 = (SVC_ContextRestore w).r4 ∧
      (SVC_ContextRestore { w with mem := m2 }).r5 = (SVC_ContextRestore w).r5 ∧
      (SVC_ContextRestore { w with mem := m2 }).r6 = (SVC_ContextRestore w).r6 ∧
      (SVC_ContextRestore { w with mem := m2 }).r7 = (SVC_ContextRestore w).r7 ∧
      (SVC_ContextRestore { w with mem := m2 }).r8 = (SVC_ContextRestore w).r8 ∧
      (SVC_ContextRestore { w with mem := m2 }).r9 = (SVC_ContextRestore w).r9 ∧
      (SVC_ContextRestore { w with mem := m2 }).r10 = (SVC_ContextRestore w).r10 ∧
      (SVC_ContextRestore { w with mem := m2 }).r11 = (SVC_ContextRestore w).r11 ∧
      (SVC_ContextRestore { w with mem := m2 }).psp = (SVC_ContextRestore w).psp ∧
      (SVC_ContextRestore { w with mem := m2 }).lr = (SVC_ContextRestore w).lr ∧
      ∀ i, (SVC_ContextRestore { w with mem := m2 }).s i = (SVC_ContextRestore w).s i) := by
  refine ⟨?_, ?_, ?_, ?_, ?_⟩
  · intro heq
    rw [SVC_Context_fast helper runAddr st heq]
  · intro h0 x hx1 hx2 hx3
    simp only [contextPre]
    rw [if_pos h0]
    exact save_mem_frame _ x h96 hx1 hx2 hx3
  · intro h0 x hx
    simp only [contextPre]
    rw [if_neg (fun h => h h0)]
    by_cases h1 : st.lr &&& 16 ≠ 0
    · rw [if_pos h1]
    · rw [if_neg h1]
      exact writeWord_apply_ne _ _ _ _ hx
  · intro hne x hx
    rw [SVC_Context_factor helper runAddr st hne]
    simp only [SVC_ContextSwitch]
    rw [restore_mem]
    show writeWord (helper (contextPre runAddr st)).mem runAddr
      (readWord (helper (contextPre runAddr st)).mem (runAddr + 4)) x
      = (helper (contextPre runAddr st)).mem x
    exact writeWord_apply_ne _ _ _ _ hx
  · intro w m2 hb hw hstk
    have hsf2 : readByte m2 (w.r2 + 34) = readByte w.mem (w.r2 + 34) := by
      simp only [readByte, hb]
    have hsp2 : readWord m2 (w.r2 + 56) = readWord w.mem (w.r2 + 56) :=
      readWord_congr _ _ _ (fun y h1 h2 => hw y h1 (by omega))
    simp only [SVC_ContextRestore]
    simp only [hsf2, hsp2]
    by_cases hcond : (readByte w.mem (w.r2 + 34) ||| 0xFFFFFF00) &&& 16 = 0
    · rw [if_pos hcond, if_pos hcond]
      refine ⟨?_, ?_, ?_, ?_, ?_, ?_, ?_, ?_, rfl, rfl, ?_⟩
      · exact readWord_congr _ _ _ (fun y h1 h2 => hstk y (by omega) (by omega))
      · exact readWord_congr _ _ _ (fun y h1 h2 => hstk y (by omega) (by omega))
      · exact readWord_congr _ _ _ (fun y h1 h2 => hstk y (by omega) (by omega))
      · exact readWord_congr _ _ _ (fun y h1 h2 => hstk y (by omega) (by omega))
      · exact readWord_congr _ _ _ (fun y h1 h2 => hstk y (by omega) (by omega))
      · exact readWord_congr _ _ _ (fun y h1 h2 => hstk y (by omega) (by omega))
      · exact readWord_congr _ _ _ (fun y h1 h2 => hstk y (by omega) (by omega))
      · exact readWord_congr _ _ _ (fun y h1 h2 => hstk y (by omega) (by omega))
      · intro i
        show (if 16 ≤ i ∧ i ≤ 31 then
            readWord m2 (readWord w.mem (w.r2 + 56) + 4 * (i - 16)) else w.s i) =
          (if 16 ≤ i ∧ i ≤ 31 then
            readWord w.mem (readWord w.mem (w.r2 + 56) + 4 * (i - 16)) else w.s i)
        by_cases hi : 16 ≤ i ∧ i ≤ 31
        · rw [if_pos hi, if_pos hi]
          refine readWord_congr _ _ _ (fun y h1 h2 => hstk y (by omega) ?_)
          have hb1 : i ≤ 31 := hi.2
          omega
        · rw [if_neg hi, if_neg hi]
    · rw [if_neg hcond, if_neg hcond]
      refine ⟨?_, ?_, ?_, ?_, ?_, ?_, ?_, ?_, rfl, rfl, fun i => rfl⟩
      · exact readWord_congr _ _ _ (fun y h1 h2 => hstk y (by omega) (by omega))
      · exact readWord_congr _ _ _ (fun y h1 h2 => hstk y (by omega) (by omega))
      · exact readWord_congr _ _ _ (fun y h1 h2 => hstk y (by omega) (by omega))
      · exact readWord_congr _ _ _ (fun y h1 h2 => hstk y (by omega) (by omega))
      · exact readWord_congr _ _ _ (fun y h1 h2 => hstk y (by omega) (by omega))
      · exact readWord_congr _ _ _ (fun y h1 h2 => hstk y (by omega) (by omega))
      · exact readWord_congr _ _ _ (fun y h1 h2 => hstk y (by omega) (by omega))
      · exact readWord_congr _ _ _ (fun y h1 h2 => hstk y (by omega) (by omega))

theorem C8_tcb_frame_check :
    96 ≤ c7State.r12 ∧ (contextPre 600 c7State).mem 0 = c7State.mem 0 :=
  ⟨by decide,
   (C8_tcb_frame id 600 c7State (by decide)).2.2.1 (by decide) 0 (by decide)⟩

/-- The state with which both trampolines enter the context-switch tail:
after PUSH {R4,LR}, the policy call, POP {R4,LR} and MRS R12,PSP. -/
def trampolinePost (policy : MachState → MachState) (st : MachState) : MachState :=
  let m1 := writeWord (writeWord st.mem (st.msp - 8) st.r4) (st.msp - 4) st.lr
  let s1 := policy { st with mem := m1, msp := st.msp - 8 }
  { s1 with
    r4 := readWord s1.mem s1.msp
    lr := readWord s1.mem (s1.msp + 4)
    msp := s1.msp + 8
    r12 := s1.psp }

theorem trampolinePost_spec (policy : MachState → MachState) (st : MachState)
    (hmsp : 8 ≤ st.msp) (hlr : st.lr < 4294967296) (hr4 : st.r4 < 4294967296)
    (hpol : ∀ w, (policy w).msp = w.msp ∧ ∀ x, w.msp ≤ x → (policy w).mem x = w.mem x) :
    (trampolinePost policy st).r12 = (trampolinePost policy st).psp ∧
    (trampolinePost policy st).lr = st.lr ∧
    (trampolinePost policy st).r4 = st.r4 := by
  simp only [trampolinePost]
  have hm : (policy { st with
      mem := writeWord (writeWord st.mem (st.msp - 8) st.r4) (st.msp - 4) st.lr
      msp := st.msp - 8 }).msp = st.msp - 8 :=
    (hpol _).1
  have hmem : ∀ x, st.msp - 8 ≤ x →
      (policy { st with
        mem := writeWord (writeWord st.mem (st.msp - 8) st.r4) (st.msp - 4) st.lr
        msp := st.msp - 8 }).mem x
      = writeWord (writeWord st.mem (st.msp - 8) st.r4) (st.msp - 4) st.lr x :=
    fun x hx => (hpol _).2 x hx
  refine ⟨by trivial, ?_, ?_⟩
  · show readWord _ (_ + 4) = st.lr
    rw [hm, readWord_congr _ _ _ (fun x h1 h2 => hmem x (by omega))]
    rw [show st.msp - 8 + 4 = st.msp - 4 by omega]
    rw [readWord_writeWord]
    exact Nat.mod_eq_of_lt hlr
  · show readWord _ _ = st.r4
    rw [hm, readWord_congr _ _ _ (fun x h1 h2 => hmem x (by omega))]
    rw [readWord_writeWord_ne _ _ _ _ (by omega), readWord_writeWord]
    exact Nat.mod_eq_of_lt hr4

/-- Claim C9: the PendSV handler first calls the PendSV policy callback and
the SysTick handler first calls the tick policy callback; both then enter
the shared context-switch tail in a state whose R12 equals the live PSP
value and whose LR equals the EXC_RETURN that was live on handler entry,
preserved across the policy call by the push and pop of R4 and LR on the
main stack.  The policy is assumed AAPCS-conformant: it preserves the
stack pointer and the memory at or above it. -/
theorem C9_trampolines (p q helper : MachState → MachState) (runAddr : Nat) (st : MachState)
    (hmsp : 8 ≤ st.msp) (hlr : st.lr < 4294967296) (hr4 : st.r4 < 4294967296)
    (hp : ∀ w, (p w).msp = w.msp ∧ ∀ x, w.msp ≤ x → (p w).mem x = w.mem x)
    (hq : ∀ w, (q w).msp = w.msp ∧ ∀ x, w.msp ≤ x → (q w).mem x = w.mem x) :
    PendSV_Handler p helper runAddr st = SVC_Context helper runAddr (trampolinePost p st) ∧
    (trampolinePost p st).r12 = (trampolinePost p st).psp ∧
    (trampolinePost p st).lr = st.lr ∧
    (trampolinePost p st).r4 = st.r4 ∧
    SysTick_Handler q helper runAddr st = SVC_Context helper runAddr (trampolinePost q st) ∧
    (trampolinePost q st).r12 = (trampolinePost q st).psp ∧
    (trampolinePost q st).lr = st.lr ∧
    (trampolinePost q st).r4 = st.r4 := by
  have h1 := trampolinePost_spec p st hmsp hlr hr4 hp
  have h2 := trampolinePost_spec q st hmsp hlr hr4 hq
  exact ⟨rfl, h1.1, h1.2.1, h1.2.2, rfl, h2.1, h2.2.1, h2.2.2⟩

/-- Concrete trampoline input. -/
def c9State : MachState :=
  { c7State with msp := 900, r4 := 0xDEADBEEF, psp := 5000, lr := 0xFFFFFFFD }

theorem C9_trampolines_check :
    8 ≤ c9State.msp ∧ (trampolinePost id c9State).lr = c9State.lr :=
  ⟨by decide,
   (C9_trampolines id id id 600 c9State (by decide) (by decide) (by decide)
     (fun w => ⟨rfl, fun x hx => rfl⟩) (fun w => ⟨rfl, fun x hx => rfl⟩)).2.2.1⟩

/-- The register state with which the SVC 0 service function is invoked:
R0..R3 and R12 loaded from the basic frame on PSP, the two-word push
already on the main stack. -/
def svcZeroArgState (st : MachState) : MachState :=
  { st with
    mem := writeWord (writeWord st.mem (st.msp - 8) st.psp) (st.msp - 4) st.lr
    msp := st.msp - 8
    r12 := readWord st.mem (st.psp + 16)
    r0 := readWord st.mem st.psp
    r1 := readWord st.mem (st.psp + 4)
    r2 := readWord st.mem (st.psp + 8)
    r3 := readWord st.mem (st.psp + 12) }

/-- Claim C2: an SVC exception whose immediate (the byte two below the
saved PC in the basic frame on PSP) is 0 loads R0..R3 and R12 from the
saved frame, calls the function whose address was in the saved R12 slot
with those arguments, writes the returned R0 and R1 into the first two
words of the saved frame (leaving every other byte as the callee left
it), restores R12 = PSP and LR = the entry EXC_RETURN from the push, and
then enters the context-switch tail.  The callee is assumed
AAPCS-conformant: it preserves the stack pointer and the memory at or
above it. -/
theorem C2_svc_zero_marshal (funs : Nat → MachState → MachState)
    (helper : MachState → MachState) (runAddr svcTab : Nat) (st : MachState)
    (hn0 : readByte st.mem (readWord st.mem (st.psp + 24) - 2) = 0)
    (hmsp : 8 ≤ st.msp) (hpsp32 : st.psp < 4294967296) (hlr32 : st.lr < 4294967296)
    (hsep : st.psp + 27 < st.msp - 8 ∨ st.msp ≤ st.psp)
    (hfun : ∀ g w, (funs g w).msp = w.msp ∧ ∀ x, w.msp ≤ x → (funs g w).mem x = w.mem x) :
    SVC_Handler funs helper runAddr svcTab st
      = SVC_Context helper runAddr (svcZeroMarshal funs { st with r0 := st.psp, r1 := 0 }) ∧
    (svcZeroMarshal funs { st with r0 := st.psp, r1 := 0 }).r12 = st.psp ∧
    (svcZeroMarshal funs { st with r0 := st.psp, r1 := 0 }).lr = st.lr ∧
    readWord (svcZeroMarshal funs { st with r0 := st.psp, r1 := 0 }).mem st.psp
      = (funs (readWord st.mem (st.psp + 16)) (svcZeroArgState st)).r0 % 4294967296 ∧
    readWord (svcZeroMarshal funs { st with r0 := st.psp, r1 := 0 }).mem (st.psp + 4)
      = (funs (readWord st.mem (st.psp + 16)) (svcZeroArgState st)).r1 % 4294967296 ∧
    ∀ x, (x < st.psp ∨ st.psp + 7 < x) →
      (svcZeroMarshal funs { st with r0 := st.psp, r1 := 0 }).mem x
        = (funs (readWord st.mem (st.psp + 16)) (svcZeroArgState st)).mem x := by
  have e0 : readWord (writeWord (writeWord st.mem (st.msp - 8) st.psp) (st.msp - 4) st.lr)
      st.psp = readWord st.mem st.psp := by
    rw [readWord_writeWord_ne _ _ _ _ (by omega), readWord_writeWord_ne _ _ _ _ (by omega)]
  have e4 : readWord (writeWord (writeWord st.mem (st.msp - 8) st.psp) (st.msp - 4) st.lr)
      (st.psp + 4) = readWord st.mem (st.psp + 4) := by
    rw [readWord_writeWord_ne _ _ _ _ (by omega), readWord_writeWord_ne _ _ _ _ (by omega)]
  have e8 : readWord (writeWord (writeWord st.mem (st.msp - 8) st.psp) (st.msp - 4) st.lr)
      (st.psp + 8) = readWord st.mem (st.psp + 8) := by
    rw [readWord_writeWord_ne _ _ _ _ (by omega), readWord_writeWord_ne _ _ _ _ (by omega)]
  have e12 : readWord (writeWord (writeWord st.mem (st.msp - 8) st.psp) (st.msp - 4) st.lr)
      (st.psp + 12) = readWord st.mem (st.psp + 12) := by
    rw [readWord_writeWord_ne _ _ _ _ (by omega), readWord_writeWord_ne _ _ _ _ (by omega)]
  have e16 : readWord (writeWord (writeWord st.mem (st.msp - 8) st.psp) (st.msp - 4) st.lr)
      (st.psp + 16) = readWord st.mem (st.psp + 16) := by
    rw [readWord_writeWord_ne _ _ _ _ (by omega), readWord_writeWord_ne _ _ _ _ (by omega)]
  have hfmsp : (funs (readWord st.mem (st.psp + 16)) (svcZeroArgState st)).msp
      = st.msp - 8 := (hfun _ _).1
  have hfmem : ∀ x, st.msp - 8 ≤ x →
      (funs (readWord st.mem (st.psp + 16)) (svcZeroArgState st)).mem x
        = writeWord (writeWord st.mem (st.msp - 8) st.psp) (st.msp - 4) st.lr x :=
    fun x hx => (hfun _ _).2 x hx
  have hp12 : readWord (funs (readWord st.mem (st.psp + 16)) (svcZeroArgState st)).mem
      (st.msp - 8) = st.psp := by
    rw [readWord_congr _ _ _ (fun x h1 h2 => hfmem x (by omega))]
    rw [readWord_writeWord_ne _ _ _ _ (by omega), readWord_writeWord]
    exact Nat.mod_eq_of_lt hpsp32
  have hplr : readWord (funs (readWord st.mem (st.psp + 16)) (svcZeroArgState st)).mem
      (st.msp - 8 + 4) = st.lr := by
    rw [readWord_congr _ _ _ (fun x h1 h2 => hfmem x (by omega))]
    rw [show st.msp - 8 + 4 = st.msp - 4 by omega, readWord_writeWord]
    exact Nat.mod_eq_of_lt hlr32
  simp only [svcZeroArgState] at hfmsp hfmem hp12 hplr
  have hout : svcZeroMarshal funs { st with r0 := st.psp, r1 := 0 }
      = { funs (readWord st.mem (st.psp + 16)) (svcZeroArgState st) with
          r12 := st.psp
          lr := st.lr
          msp := st.msp - 8 + 8
          mem := writeWord
            (writeWord (funs (readWord st.mem (st.psp + 16)) (svcZeroArgState st)).mem
              st.psp (funs (readWord st.mem (st.psp + 16)) (svcZeroArgState st)).r0)
            (st.psp + 4)
            (funs (readWord st.mem (st.psp + 16)) (svcZeroArgState st)).r1 } := by
    simp only [svcZeroMarshal, svcZeroArgState]
    simp only [e0, e4, e8, e12, e16, hfmsp, hp12, hplr]
  rw [hout]
  refine ⟨?_, rfl, rfl, ?_, ?_, ?_⟩
  · simp only [SVC_Handler]
    rw [hn0]
    rw [if_neg (fun h => h rfl), hout]
  · rw [readWord_writeWord_ne _ _ _ _ (by omega), readWord_writeWord]
  · rw [readWord_writeWord]
  · intro x hx
    show writeWord _ (st.psp + 4) _ x = _
    rw [writeWord_apply_ne _ _ _ _ (by omega), writeWord_apply_ne _ _ _ _ (by omega)]

/-- Concrete SVC 0 input: saved PC 500 with a zero immediate byte at 498,
frame words (1,2,3,4), service function address 7777 in the R12 slot. -/
def c2State : MachState :=
  { baseState with
    psp := 100
    msp := 900
    lr := 0xFFFFFFFD
    mem := fun a =>
      if a = 100 then 1 else if a = 104 then 2 else if a = 108 then 3 else
      if a = 112 then 4 else
      if a = 116 then 97 else if a = 117 then 30 else
      if a = 124 then 244 else if a = 125 then 1 else 0 }

/-- Concrete service function: returns the sum of its first two arguments
in R0 and the constant 9 in R1. -/
def c2Funs : Nat → MachState → MachState :=
  fun _ w => { w with r0 := w.r0 + w.r1, r1 := 9 }

theorem C2_svc_zero_marshal_check :
    readByte c2State.mem (readWord c2State.mem (c2State.psp + 24) - 2) = 0 ∧
    readWord (svcZeroMarshal c2Funs { c2State with r0 := c2State.psp, r1 := 0 }).mem
        c2State.psp
      = (c2Funs (readWord c2State.mem (c2State.psp + 16)) (svcZeroArgState c2State)).r0
        % 4294967296 :=
  ⟨by decide,
   (C2_svc_zero_marshal c2Funs id 600 700 c2State (by decide) (by decide) (by decide)
     (by decide) (by decide) (fun g w => ⟨rfl, fun x hx => rfl⟩)).2.2.2.1⟩

/-- Claim C5: an SVC with nonzero immediate n greater than the table
count is rejected: no table function is called and the switch tail is
never entered (the result does not depend on the function environment or
the helper), the caller-visible registers R4..R11, S0..S31, R12, PSP, LR
are unchanged, MSP is balanced, and memory outside the transient
two-word push on the main stack is untouched (in particular the saved
frame on PSP is not written). -/
theorem C5_user_reject (funs : Nat → MachState → MachState)
    (helper : MachState → MachState) (runAddr svcTab : Nat) (st : MachState)
    (hmsp : 8 ≤ st.msp) (hr4 : st.r4 < 4294967296)
    (hn : readByte st.mem (readWord st.mem (st.psp + 24) - 2) ≠ 0)
    (hcnt : readWord st.mem svcTab < readByte st.mem (readWord st.mem (st.psp + 24) - 2))
    (hd : svcTab + 3 < st.msp - 8 ∨ st.msp ≤ svcTab) :
    (∀ f2 h2, SVC_Handler funs helper runAddr svcTab st
      = SVC_Handler f2 h2 runAddr svcTab st) ∧
    (SVC_Handler funs helper runAddr svcTab st).r4 = st.r4 ∧
    (SVC_Handler funs helper runAddr svcTab st).r5 = st.r5 ∧
    (SVC_Handler funs helper runAddr svcTab st).r6 = st.r6 ∧
    (SVC_Handler funs helper runAddr svcTab st).r7 = st.r7 ∧
    (SVC_Handler funs helper runAddr svcTab st).r8 = st.r8 ∧
    (SVC_Handler funs helper runAddr svcTab st).r9 = st.r9 ∧
    (SVC_Handler funs helper runAddr svcTab st).r10 = st.r10 ∧
    (SVC_Handler funs helper runAddr svcTab st).r11 = st.r11 ∧
    (SVC_Handler funs helper runAddr svcTab st).r12 = st.r12 ∧
    (SVC_Handler funs helper runAddr svcTab st).psp = st.psp ∧
    (SVC_Handler funs helper runAddr svcTab st).msp = st.msp ∧
    (SVC_Handler funs helper runAddr svcTab st).lr = st.lr ∧
    (SVC_Handler funs helper runAddr svcTab st).s = st.s ∧
    ∀ x, (x < st.msp - 8 ∨ st.msp ≤ x) →
      (SVC_Handler funs helper runAddr svcTab st).mem x = st.mem x := by
  have hm1cnt : readWord (writeWord (writeWord st.mem (st.msp - 8) st.r4) (st.msp - 4) st.lr)
      svcTab = readWord st.mem svcTab := by
    rw [readWord_writeWord_ne _ _ _ _ (by omega), readWord_writeWord_ne _ _ _ _ (by omega)]
  have hr4read : readWord (writeWord (writeWord st.mem (st.msp - 8) st.r4) (st.msp - 4) st.lr)
      (st.msp - 8) = st.r4 := by
    rw [readWord_writeWord_ne _ _ _ _ (by omega), readWord_writeWord]
    exact Nat.mod_eq_of_lt hr4
  have hgen : ∀ (f2 : Nat → MachState → MachState) (h2 : MachState → MachState),
      SVC_Handler f2 h2 runAddr svcTab st
        = { st with
            r0 := st.psp
            r1 := readByte st.mem (readWord st.mem (st.psp + 24) - 2)
            r2 := svcTab
            r3 := readWord st.mem svcTab
            r4 := st.r4
            mem := writeWord (writeWord st.mem (st.msp - 8) st.r4) (st.msp - 4) st.lr
            msp := st.msp - 8 + 8 } := by
    intro f2 h2
    simp only [SVC_Handler]
    rw [if_pos hn]
    simp only [SVC_User]
    simp only [hm1cnt]
    rw [if_pos hcnt]
    simp only [hr4read]
  refine ⟨fun f2 h2 => (hgen funs helper).trans (hgen f2 h2).symm, ?_⟩
  rw [hgen funs helper]
  refine ⟨rfl, rfl, rfl, rfl, rfl, rfl, rfl, rfl, rfl, rfl,
    by show st.msp - 8 + 8 = st.msp; omega, rfl, rfl, ?_⟩
  intro x hx
  show writeWord _ (st.msp - 4) _ x = st.mem x
  rw [writeWord_apply_ne _ _ _ _ (by omega), writeWord_apply_ne _ _ _ _ (by omega)]

/-- Concrete out-of-range user SVC input: immediate 5 at the byte below
the saved PC, table count 3 at os_rtx_user_svc (address 700). -/
def c5State : MachState :=
  { baseState with
    psp := 100
    msp := 900
    r4 := 0xDEADBEEF
    lr := 0xFFFFFFFD
    mem := fun a =>
      if a = 100 then 1 else if a = 104 then 2 else if a = 108 then 3 else
      if a = 112 then 4 else
      if a = 124 then 244 else if a = 125 then 1 else
      if a = 498 then 5 else
      if a = 700 then 3 else 0 }

theorem C5_user_reject_check :
    readWord c5State.mem 700 < readByte c5State.mem (readWord c5State.mem (c5State.psp + 24) - 2) ∧
    (SVC_Handler c2Funs id 600 700 c5State).r4 = c5State.r4 :=
  ⟨by decide,
   (C5_user_reject c2Funs id 600 700 c5State (by decide) (by decide) (by decide)
     (by decide) (by decide)).2.1⟩

/-- The register state with which a user SVC table function is invoked:
R0..R3 loaded from the basic frame on PSP, R4 holding the table entry,
the two-word push already on the main stack. -/
def svcUserArgState (svcTab : Nat) (st : MachState) : MachState :=
  { st with
    mem := writeWord (writeWord st.mem (st.msp - 8) st.r4) (st.msp - 4) st.lr
    msp := st.msp - 8
    r4 := readWord st.mem
      (svcTab + 4 * readByte st.mem (readWord st.mem (st.psp + 24) - 2))
    r0 := readWord st.mem st.psp
    r1 := readWord st.mem (st.psp + 4)
    r2 := readWord st.mem (st.psp + 8)
    r3 := readWord st.mem (st.psp + 12) }

/-- Claim C6: an SVC with nonzero immediate n within the table count
calls the function stored at table index n with R0..R3 taken from the
saved frame on PSP, then writes only the returned R0 back into the first
word of the saved frame (re-reading PSP after the call), and returns
without entering the context-switch tail (the result does not depend on
the helper).  The callee is assumed to preserve PSP. -/
theorem C6_user_dispatch (funs : Nat → MachState → MachState)
    (helper : MachState → MachState) (runAddr svcTab : Nat) (st : MachState)
    (hmsp : 8 ≤ st.msp)
    (hn0 : readByte st.mem (readWord st.mem (st.psp + 24) - 2) ≠ 0)
    (hcnt : ¬ readWord st.mem svcTab
      < readByte st.mem (readWord st.mem (st.psp + 24) - 2))
    (hdtab : svcTab + 4 * readByte st.mem (readWord st.mem (st.psp + 24) - 2) + 3
      < st.msp - 8 ∨ st.msp ≤ svcTab)
    (hdframe : st.psp + 15 < st.msp - 8 ∨ st.msp ≤ st.psp)
    (hpsp : ∀ g w, (funs g w).psp = w.psp) :
    (∀ h2, SVC_Handler funs helper runAddr svcTab st
      = SVC_Handler funs h2 runAddr svcTab st) ∧
    readWord (SVC_Handler funs helper runAddr svcTab st).mem st.psp
      = (funs (readWord st.mem
          (svcTab + 4 * readByte st.mem (readWord st.mem (st.psp + 24) - 2)))
          (svcUserArgState svcTab st)).r0 % 4294967296 ∧
    ∀ x, (x < st.psp ∨ st.psp + 3 < x) →
      (SVC_Handler funs helper runAddr svcTab st).mem x
        = (funs (readWord st.mem
            (svcTab + 4 * readByte st.mem (readWord st.mem (st.psp + 24) - 2)))
            (svcUserArgState svcTab st)).mem x := by
  have ecnt : readWord (writeWord (writeWord st.mem (st.msp - 8) st.r4) (st.msp - 4) st.lr)
      svcTab = readWord st.mem svcTab := by
    rw [readWord_writeWord_ne _ _ _ _ (by omega), readWord_writeWord_ne _ _ _ _ (by omega)]
  have etab : readWord (writeWord (writeWord st.mem (st.msp - 8) st.r4) (st.msp - 4) st.lr)
      (svcTab + 4 * readByte st.mem (readWord st.mem (st.psp + 24) - 2))
      = readWord st.mem
        (svcTab + 4 * readByte st.mem (readWord st.mem (st.psp + 24) - 2)) := by
    rw [readWord_writeWord_ne _ _ _ _ (by omega), readWord_writeWord_ne _ _ _ _ (by omega)]
  have e0 : readWord (writeWord (writeWord st.mem (st.msp - 8) st.r4) (st.msp - 4) st.lr)
      st.psp = readWord st.mem st.psp := by
    rw [readWord_writeWord_ne _ _ _ _ (by omega), readWord_writeWord_ne _ _ _ _ (by omega)]
  have e4 : readWord (writeWord (writeWord st.mem (st.msp - 8) st.r4) (st.msp - 4) st.lr)
      (st.psp + 4) = readWord st.mem (st.psp + 4) := by
    rw [readWord_writeWord_ne _ _ _ _ (by omega), readWord_writeWord_ne _ _ _ _ (by omega)]
  have e8 : readWord (writeWord (writeWord st.mem (st.msp - 8) st.r4) (st.msp - 4) st.lr)
      (st.psp + 8) = readWord st.mem (st.psp + 8) := by
    rw [readWord_writeWord_ne _ _ _ _ (by omega), readWord_writeWord_ne _ _ _ _ (by omega)]
  have e12 : readWord (writeWord (writeWord st.mem (st.msp - 8) st.r4) (st.msp - 4) st.lr)
      (st.psp + 12) = readWord st.mem (st.psp + 12) := by
    rw [readWord_writeWord_ne _ _ _ _ (by omega), readWord_writeWord_ne _ _ _ _ (by omega)]
  have hFpsp : (funs (readWord st.mem
      (svcTab + 4 * readByte st.mem (readWord st.mem (st.psp + 24) - 2)))
      (svcUserArgState svcTab st)).psp = st.psp := hpsp _ _
  simp only [svcUserArgState] at hFpsp
  have hgen : ∀ h2, SVC_Handler funs h2 runAddr svcTab st
      = { funs (readWord st.mem
            (svcTab + 4 * readByte st.mem (readWord st.mem (st.psp + 24) - 2)))
            (svcUserArgState svcTab st) with
          mem := writeWord
            (funs (readWord st.mem
              (svcTab + 4 * readByte st.mem (readWord st.mem (st.psp + 24) - 2)))
              (svcUserArgState svcTab st)).mem
            st.psp
            (funs (readWord st.mem
              (svcTab + 4 * readByte st.mem (readWord st.mem (st.psp + 24) - 2)))
              (svcUserArgState svcTab st)).r0
          r4 := readWord
            (writeWord
              (funs (readWord st.mem
                (svcTab + 4 * readByte st.mem (readWord st.mem (st.psp + 24) - 2)))
                (svcUserArgState svcTab st)).mem
              st.psp
              (funs (readWord st.mem
                (svcTab + 4 * readByte st.mem (readWord st.mem (st.psp + 24) - 2)))
                (svcUserArgState svcTab st)).r0)
            (funs (readWord st.mem
              (svcTab + 4 * readByte st.mem (readWord st.mem (st.psp + 24) - 2)))
              (svcUserArgState svcTab st)).msp
          msp := (funs (readWord st.mem
            (svcTab + 4 * readByte st.mem (readWord st.mem (st.psp + 24) - 2)))
            (svcUserArgState svcTab st)).msp + 8 } := by
    intro h2
    simp only [SVC_Handler]
    rw [if_pos hn0]
    simp only [SVC_User, svcUserArgState]
    simp only [ecnt]
    rw [if_neg hcnt]
    simp only [etab, e0, e4, e8, e12, hFpsp]
  refine ⟨fun h2 => (hgen helper).trans (hgen h2).symm, ?_, ?_⟩
  · rw [hgen helper]
    show readWord (writeWord _ st.psp _) st.psp = _
    rw [readWord_writeWord]
  · intro x hx
    rw [hgen helper]
    show writeWord _ st.psp _ x = _
    rw [writeWord_apply_ne _ _ _ _ hx]

/-- Concrete in-range user SVC input: immediate 2, table count 3 at
address 700, table entry 2 at address 708 holding function address 4242. -/
def c6State : MachState :=
  { baseState with
    psp := 100
    msp := 900
    r4 := 77
    lr := 0xFFFFFFFD
    mem := fun a =>
      if a = 100 then 1 else if a = 104 then 2 else if a = 108 then 3 else
      if a = 112 then 4 else
      if a = 124 then 244 else if a = 125 then 1 else
      if a = 498 then 2 else
      if a = 700 then 3 else
      if a = 708 then 146 else if a = 709 then 16 else 0 }

theorem C6_user_dispatch_check :
    readByte c6State.mem (readWord c6State.mem (c6State.psp + 24) - 2) = 2 ∧
    readWord (SVC_Handler c2Funs id 600 700 c6State).mem c6State.psp
      = (c2Funs (readWord c6State.mem
          (700 + 4 * readByte c6State.mem (readWord c6State.mem (c6State.psp + 24) - 2)))
          (svcUserArgState 700 c6State)).r0 % 4294967296 :=
  ⟨by decide,
   (C6_user_dispatch c2Funs id 600 700 c6State (by decide) (by decide) (by decide)
     (by decide) (by decide) (fun g w => rfl)).2.1⟩

end IrqCm4f
